import Mathlib

/-
  Verification development for the WalletTracker repository.

  The repository is a TypeScript single-page app that reads a Solana
  wallet through JSON-RPC.  It contains two parallel copies of the core
  logic:
    * src/api/solanaRpc.ts + App.tsx variant using inferTransactionRow,
      runWithConcurrency and a handleTrack orchestrator, and
    * a second copy (the unnamed module) exporting inferUiTxRow,
      inferUiTokenBalances and an App with fetchWalletData plus a
      localStorage wallet cache.

  Everything below is a shallow embedding of those functions.  JavaScript
  numbers that the code only ever treats as exact integers (lamports,
  slots, unix times, fees) are embedded as Int; values produced by
  JSON.parse are embedded by a small JSON value type whose numbers are
  either finite rationals or one of the non-finite IEEE values
  (JSON.parse can produce Infinity from oversized literals).
-/

set_option maxRecDepth 10000

namespace WalletTracker

/-! ### JavaScript number and JSON value model -/

/-- Model of a JavaScript number as it can appear after JSON.parse:
a finite rational, or one of the non-finite IEEE values. -/
inductive JsNum where
  | finite (q : ℚ)
  | posInf
  | negInf
  | nan
  deriving DecidableEq, Repr

/-- Subtraction on JavaScript numbers (used for Date.now() - cachedAt). -/
def jsSub : JsNum → JsNum → JsNum
  | JsNum.finite a, JsNum.finite b => JsNum.finite (a - b)
  | JsNum.nan, _ => JsNum.nan
  | _, JsNum.nan => JsNum.nan
  | JsNum.posInf, JsNum.posInf => JsNum.nan
  | JsNum.posInf, _ => JsNum.posInf
  | JsNum.negInf, JsNum.negInf => JsNum.nan
  | JsNum.negInf, _ => JsNum.negInf
  | JsNum.finite _, JsNum.posInf => JsNum.negInf
  | JsNum.finite _, JsNum.negInf => JsNum.posInf

/-- Strict greater-than on JavaScript numbers; every comparison with NaN
is false. -/
def jsGtB : JsNum → JsNum → Bool
  | JsNum.finite a, JsNum.finite b => decide (b < a)
  | JsNum.nan, _ => false
  | _, JsNum.nan => false
  | JsNum.posInf, JsNum.posInf => false
  | JsNum.posInf, _ => true
  | JsNum.negInf, _ => false
  | JsNum.finite _, JsNum.posInf => false
  | JsNum.finite _, JsNum.negInf => true

/-- Model of a JSON value as returned by JSON.parse. -/
inductive JVal where
  | jnull
  | jbool (b : Bool)
  | jnum (n : JsNum)
  | jstr (s : String)
  | jarr (elems : List JVal)
  | jobj (fields : List (String × JVal))
  deriving Repr

/-- Last-wins association lookup: JSON.parse keeps the last duplicate
key of an object. -/
def lookupLast (fields : List (String × JVal)) (key : String) : Option JVal :=
  List.foldl (fun acc kv => if kv.1 = key then some kv.2 else acc) none fields

/-- Property access v[key] on a JSON value that also records the
JavaScript exception on null (accessing a property of null throws a
TypeError).  Non-object non-null values yield undefined (none). -/
def getProp : JVal → String → Except Unit (Option JVal)
  | JVal.jnull, _ => Except.error ()
  | JVal.jobj fields, key => Except.ok (lookupLast fields key)
  | _, _ => Except.ok none

/-- Property access on a value already known not to be null. -/
def getFieldOpt : JVal → String → Option JVal
  | JVal.jobj fields, key => lookupLast fields key
  | _, _ => none

/-! ### Case-insensitive substring matching (for the regex tests) -/

/-- Test whether the second list is an exact leading segment of the
first list. -/
def leadMatch : List Char → List Char → Bool
  | _, [] => true
  | [], _ :: _ => false
  | c :: cs, p :: ps => c == p && leadMatch cs ps

/-- Test whether the pattern occurs as a contiguous sublist of the
haystack. -/
def hasSubList : List Char → List Char → Bool
  | [], pat => pat.isEmpty
  | hay@(_ :: rest), pat => leadMatch hay pat || hasSubList rest pat

/-- Case-insensitive substring containment, the model of
/pat/i.test(hay) for the plain-word patterns used by the code. -/
def containsCI (hay pat : String) : Bool :=
  hasSubList (hay.toList.map Char.toLower) (pat.toList.map Char.toLower)

/-! ### Data model from src/api/solanaRpc.ts -/

/-- Scale factor from src/utils/format.ts. -/
def LAMPORTS_PER_SOL : ℤ := 1000000000

/-- lamportsToSol from src/utils/format.ts, with the JavaScript float
division embedded as exact rational division. -/
def lamportsToSol (lamports : ℤ) : ℚ :=
  (lamports : ℚ) / (LAMPORTS_PER_SOL : ℚ)

/-- RpcAccountKey: each account key is either a bare address string or
a structured key with a pubkey field (the signer/writable/source fields
are never read by the code and are omitted). -/
inductive RpcAccountKey where
  | bare (address : String)
  | structured (pubkey : String)
  deriving DecidableEq, Repr

/-- normalizeAccountKey from src/api/solanaRpc.ts. -/
def normalizeAccountKey : RpcAccountKey → String
  | RpcAccountKey.bare s => s
  | RpcAccountKey.structured pk => pk

/-- State of the err property of a transaction meta object as produced
by JSON: the property can be absent, explicitly null, or a non-null
JSON value (whose payload the code never inspects). -/
inductive ErrField where
  | absent
  | isNull
  | nonNull
  deriving DecidableEq, Repr

/-- Meta object of a TransactionDetail.  fee, preBalances and
postBalances are optional; the code guards each access with a typeof or
Array.isArray check, so a missing or wrongly-typed field is embedded as
none. -/
structure TxMeta where
  err : ErrField
  fee : Option ℤ
  preBalances : Option (List ℤ)
  postBalances : Option (List ℤ)
  deriving DecidableEq, Repr

/-- TransactionDetail from src/api/solanaRpc.ts.  slot and blockTime are
guarded by typeof checks / nullish coalescing in the code, so both are
embedded as optional; transaction?.message?.accountKeys collapses to one
optional account-key list (none when any link of the optional chain is
missing or the result is not an array). -/
structure TransactionDetail where
  slot : Option ℤ
  blockTime : Option ℤ
  meta : Option TxMeta
  accountKeys : Option (List RpcAccountKey)
  deriving DecidableEq, Repr

/-- SignatureInfo fields read by the inference engine (err, memo and
confirmationStatus are never read by it and are omitted). -/
structure SignatureInfo where
  signature : String
  slot : ℤ
  blockTime : Option ℤ
  deriving DecidableEq, Repr

/-- Transaction status enum. -/
inductive TxStatus where
  | success
  | fail
  | unknown
  deriving DecidableEq, Repr

/-- Transaction direction enum. -/
inductive TxDirection where
  | incoming
  | outgoing
  | unknown
  deriving DecidableEq, Repr

/-- UiTxRow from src/api/solanaRpc.ts.  time is the millisecond value of
the constructed Date (unixTime * 1000). -/
structure UiTxRow where
  signature : String
  time : Option ℚ
  status : TxStatus
  direction : TxDirection
  solChange : Option ℚ
  feeSol : Option ℚ
  slot : Option ℤ
  explorerUrl : String
  detailUnavailable : Bool
  deriving DecidableEq, Repr

/-- inferTransactionRow from src/api/solanaRpc.ts, translated clause by
clause.  The wallet index search is findIndex over normalized keys; the
balance delta is computed only when the index is covered by both
balance arrays; status distinguishes meta absent, err property absent,
err null and err non-null; blockTime falls back from the detail to the
signature record; slot falls back to the signature record. -/
def inferTransactionRow (walletAddress : String) (signatureInfo : SignatureInfo)
    (detail : Option TransactionDetail) (explorerUrl : String)
    (detailUnavailable : Bool) : UiTxRow :=
  let meta : Option TxMeta := detail.bind (·.meta)
  let accountKeys : Option (List RpcAccountKey) := detail.bind (·.accountKeys)
  let deltaPair : Option ℚ × TxDirection :=
    match accountKeys, meta.bind (·.preBalances), meta.bind (·.postBalances) with
    | some keys, some pre, some post =>
      match keys.findIdx? (fun k => normalizeAccountKey k == walletAddress) with
      | some walletIndex =>
        if walletIndex < pre.length && walletIndex < post.length then
          let lamportDelta : ℤ := post.getD walletIndex 0 - pre.getD walletIndex 0
          let solChange : ℚ := (lamportDelta : ℚ) / (LAMPORTS_PER_SOL : ℚ)
          (some solChange,
            if solChange > 0 then TxDirection.incoming
            else if solChange < 0 then TxDirection.outgoing
            else TxDirection.unknown)
        else (none, TxDirection.unknown)
      | none => (none, TxDirection.unknown)
    | _, _, _ => (none, TxDirection.unknown)
  let status : TxStatus :=
    match meta with
    | some m =>
      match m.err with
      | ErrField.isNull => TxStatus.success
      | ErrField.nonNull => TxStatus.fail
      | ErrField.absent => TxStatus.unknown
    | none => TxStatus.unknown
  let unixTime : Option ℤ := (detail.bind (·.blockTime)).orElse (fun _ => signatureInfo.blockTime)
  { signature := signatureInfo.signature
    time := unixTime.map (fun t => ((t * 1000 : ℤ) : ℚ))
    status := status
    direction := deltaPair.2
    solChange := deltaPair.1
    feeSol := (meta.bind (·.fee)).map lamportsToSol
    slot := match detail.bind (·.slot) with
      | some s => some s
      | none => some signatureInfo.slot
    explorerUrl := explorerUrl
    detailUnavailable := detailUnavailable }

/-! ### Claims C1 to C3: the transaction inference engine -/

/-- C1: with a non-null detail whose account-key list resolves the
tracked address at first index i covered by both balance arrays, the
inferred row has solChange = (postBalances[i] - preBalances[i]) / 1e9
and direction incoming / outgoing / unknown by the sign of that delta;
when the address is not found, or the balance arrays are absent or too
short, solChange is null and direction unknown. -/
theorem inferTransactionRow_balance_delta
    (w : String) (sig : SignatureInfo) (d : TransactionDetail)
    (eu : String) (du : Bool) :
    (∀ keys m pre post i,
        d.accountKeys = some keys → d.meta = some m →
        m.preBalances = some pre → m.postBalances = some post →
        keys.findIdx? (fun k => normalizeAccountKey k == w) = some i →
        i < pre.length → i < post.length →
        (inferTransactionRow w sig (some d) eu du).solChange
            = some (((post.getD i 0 - pre.getD i 0 : ℤ) : ℚ) / (LAMPORTS_PER_SOL : ℚ))
          ∧ (inferTransactionRow w sig (some d) eu du).direction
            = (if ((post.getD i 0 - pre.getD i 0 : ℤ) : ℚ) / (LAMPORTS_PER_SOL : ℚ) > 0
               then TxDirection.incoming
               else if ((post.getD i 0 - pre.getD i 0 : ℤ) : ℚ) / (LAMPORTS_PER_SOL : ℚ) < 0
               then TxDirection.outgoing
               else TxDirection.unknown))
  ∧ (∀ keys,
        d.accountKeys = some keys →
        keys.findIdx? (fun k => normalizeAccountKey k == w) = none →
        (inferTransactionRow w sig (some d) eu du).solChange = none
          ∧ (inferTransactionRow w sig (some d) eu du).direction = TxDirection.unknown)
  ∧ (∀ m,
        d.meta = some m →
        (m.preBalances = none ∨ m.postBalances = none) →
        (inferTransactionRow w sig (some d) eu du).solChange = none
          ∧ (inferTransactionRow w sig (some d) eu du).direction = TxDirection.unknown)
  ∧ (d.meta = none →
        (inferTransactionRow w sig (some d) eu du).solChange = none
          ∧ (inferTransactionRow w sig (some d) eu du).direction = TxDirection.unknown)
  ∧ (∀ keys m pre post i,
        d.accountKeys = some keys → d.meta = some m →
        m.preBalances = some pre → m.postBalances = some post →
        keys.findIdx? (fun k => normalizeAccountKey k == w) = some i →
        (pre.length ≤ i ∨ post.length ≤ i) →
        (inferTransactionRow w sig (some d) eu du).solChange = none
          ∧ (inferTransactionRow w sig (some d) eu du).direction = TxDirection.unknown) := by
  refine ⟨?_, ?_, ?_, ?_, ?_⟩
  · intro keys m pre post i hk hm hpre hpost hidx h1 h2
    simp [inferTransactionRow, hk, hm, hpre, hpost, hidx, h1, h2]
  · intro keys hk hidx
    cases hm : d.meta with
    | none => simp [inferTransactionRow, hk, hm, hidx]
    | some m =>
      cases hpre : m.preBalances with
      | none => simp [inferTransactionRow, hk, hm, hpre, hidx]
      | some pre =>
        cases hpost : m.postBalances with
        | none => simp [inferTransactionRow, hk, hm, hpre, hpost, hidx]
        | some post => simp [inferTransactionRow, hk, hm, hpre, hpost, hidx]
  · intro m hm hor
    cases hk : d.accountKeys with
    | none => simp [inferTransactionRow, hk, hm]
    | some keys =>
      rcases hor with hpre | hpost
      · simp [inferTransactionRow, hk, hm, hpre]
      · cases hpre : m.preBalances with
        | none => simp [inferTransactionRow, hk, hm, hpre]
        | some pre => simp [inferTransactionRow, hk, hm, hpre, hpost]
  · intro hm
    cases hk : d.accountKeys with
    | none => simp [inferTransactionRow, hk, hm]
    | some keys => simp [inferTransactionRow, hk, hm]
  · intro keys m pre post i hk hm hpre hpost hidx hshort
    have hcond : ¬(i < pre.length ∧ i < post.length) := by
      rcases hshort with h | h
      · exact fun hc => absurd hc.1 (Nat.not_lt.mpr h)
      · exact fun hc => absurd hc.2 (Nat.not_lt.mpr h)
    simp [inferTransactionRow, hk, hm, hpre, hpost, hidx, hcond]

/-- Witness for C1 at the spec example: tracked address at index 1,
preBalances = [5000000000, 3000000000], postBalances =
[5001000, 3100000000], delta = 0.1 SOL, incoming. -/
theorem inferTransactionRow_balance_delta_witness :
    (inferTransactionRow "w1" ⟨"sig1", 42, some 1700000000⟩
        (some ⟨some 77, some 1700000100,
          some ⟨ErrField.isNull, some 5000,
            some [5000000000, 3000000000], some [5001000, 3100000000]⟩,
          some [RpcAccountKey.bare "other", RpcAccountKey.structured "w1"]⟩)
        "u" false).solChange = some ((1 : ℚ) / 10)
  ∧ (inferTransactionRow "w1" ⟨"sig1", 42, some 1700000000⟩
        (some ⟨some 77, some 1700000100,
          some ⟨ErrField.isNull, some 5000,
            some [5000000000, 3000000000], some [5001000, 3100000000]⟩,
          some [RpcAccountKey.bare "other", RpcAccountKey.structured "w1"]⟩)
        "u" false).direction = TxDirection.incoming := by
  obtain ⟨h1, h2⟩ :=
    (inferTransactionRow_balance_delta "w1" ⟨"sig1", 42, some 1700000000⟩
        ⟨some 77, some 1700000100,
          some ⟨ErrField.isNull, some 5000,
            some [5000000000, 3000000000], some [5001000, 3100000000]⟩,
          some [RpcAccountKey.bare "other", RpcAccountKey.structured "w1"]⟩
        "u" false).1
      [RpcAccountKey.bare "other", RpcAccountKey.structured "w1"]
      ⟨ErrField.isNull, some 5000,
        some [5000000000, 3000000000], some [5001000, 3100000000]⟩
      [5000000000, 3000000000] [5001000, 3100000000] 1
      rfl rfl rfl rfl (by simp [normalizeAccountKey, List.findIdx?]) (by decide) (by decide)
  constructor
  · rw [h1]
    norm_num [LAMPORTS_PER_SOL]
  · rw [h2]
    norm_num [LAMPORTS_PER_SOL]

/-- C2: the inferred status is success exactly when meta is present with
an err property that is explicitly null, fail exactly when the err
property is present and non-null, and unknown exactly when meta or its
err property is absent. -/
theorem inferTransactionRow_status_classification
    (w : String) (sig : SignatureInfo) (detail : Option TransactionDetail)
    (eu : String) (du : Bool) :
    ((inferTransactionRow w sig detail eu du).status = TxStatus.success
        ↔ ∃ m, detail.bind (·.meta) = some m ∧ m.err = ErrField.isNull)
  ∧ ((inferTransactionRow w sig detail eu du).status = TxStatus.fail
        ↔ ∃ m, detail.bind (·.meta) = some m ∧ m.err = ErrField.nonNull)
  ∧ ((inferTransactionRow w sig detail eu du).status = TxStatus.unknown
        ↔ detail.bind (·.meta) = none
          ∨ ∃ m, detail.bind (·.meta) = some m ∧ m.err = ErrField.absent) := by
  cases detail with
  | none => simp [inferTransactionRow]
  | some d =>
    cases hm : d.meta with
    | none => simp [inferTransactionRow, hm]
    | some m =>
      cases herr : m.err <;> simp [inferTransactionRow, hm, herr]

/-- C3: the inference function is total and degrades field-wise:
signature, explorer URL and the unavailable flag are passed through,
time falls back from the detail block time to the signature record and
otherwise is null, slot falls back to the signature record, fee is null
without a numeric meta fee, a null detail yields the fully degraded row,
and a missing meta or account-key list nulls exactly status/fee
respectively delta/direction. -/
theorem inferTransactionRow_total_degrades
    (w : String) (sig : SignatureInfo) (detail : Option TransactionDetail)
    (eu : String) (du : Bool) :
    ((inferTransactionRow w sig detail eu du).signature = sig.signature)
  ∧ ((inferTransactionRow w sig detail eu du).explorerUrl = eu)
  ∧ ((inferTransactionRow w sig detail eu du).detailUnavailable = du)
  ∧ ((inferTransactionRow w sig detail eu du).time
        = ((detail.bind (·.blockTime)).orElse (fun _ => sig.blockTime)).map
            (fun t => ((t * 1000 : ℤ) : ℚ)))
  ∧ ((inferTransactionRow w sig detail eu du).slot
        = some ((detail.bind (·.slot)).getD sig.slot))
  ∧ ((inferTransactionRow w sig detail eu du).feeSol
        = ((detail.bind (·.meta)).bind (·.fee)).map lamportsToSol)
  ∧ (detail = none →
        inferTransactionRow w sig detail eu du
          = { signature := sig.signature
              time := sig.blockTime.map (fun t => ((t * 1000 : ℤ) : ℚ))
              status := TxStatus.unknown
              direction := TxDirection.unknown
              solChange := none
              feeSol := none
              slot := some sig.slot
              explorerUrl := eu
              detailUnavailable := du })
  ∧ (∀ d, detail = some d → d.meta = none →
        (inferTransactionRow w sig detail eu du).status = TxStatus.unknown
      ∧ (inferTransactionRow w sig detail eu du).feeSol = none
      ∧ (inferTransactionRow w sig detail eu du).solChange = none
      ∧ (inferTransactionRow w sig detail eu du).direction = TxDirection.unknown)
  ∧ (∀ d, detail = some d → d.accountKeys = none →
        (inferTransactionRow w sig detail eu du).solChange = none
      ∧ (inferTransactionRow w sig detail eu du).direction = TxDirection.unknown) := by
  refine ⟨?_, ?_, ?_, ?_, ?_, ?_, ?_, ?_, ?_⟩
  · cases detail <;> simp [inferTransactionRow]
  · cases detail <;> simp [inferTransactionRow]
  · cases detail <;> simp [inferTransactionRow]
  · cases detail <;> simp [inferTransactionRow]
  · cases detail with
    | none => simp [inferTransactionRow]
    | some d => cases hs : d.slot <;> simp [inferTransactionRow, hs]
  · cases detail <;> simp [inferTransactionRow]
  · rintro rfl
    simp [inferTransactionRow]
  · rintro d rfl hm
    simp [inferTransactionRow, hm]
  · rintro d rfl hk
    refine ⟨?_, ?_⟩ <;> simp [inferTransactionRow, hk]

/-- Witness for C3 at a null detail. -/
theorem inferTransactionRow_total_degrades_witness :
    inferTransactionRow "w1" ⟨"sigX", 9, none⟩ none "url" true
      = { signature := "sigX"
          time := none
          status := TxStatus.unknown
          direction := TxDirection.unknown
          solChange := none
          feeSol := none
          slot := some 9
          explorerUrl := "url"
          detailUnavailable := true } := by
  have h := (inferTransactionRow_total_degrades "w1" ⟨"sigX", 9, none⟩ none "url" true).2.2.2.2.2.2.1 rfl
  simpa using h

/-! ### Claim C4: the concurrency-limited fetcher

runWithConcurrency (src/api/solanaRpc.ts) and processWithConcurrency
(App.tsx) are the same algorithm: limit = max 1 concurrency, spawn
min(limit, items.length) runners, each runner loops { check abort;
claim currentIndex = nextIndex; nextIndex += 1; stop when the claimed
index is past the end; else invoke worker(items[currentIndex],
currentIndex) }.  In JavaScript the claim-and-increment is a single
synchronous segment of the event loop, so it is one atomic step of the
model; worker invocations suspend, which is where interleavings arise.
The pool state tracks the number of still-active runners, the shared
counter, and the log of worker invocations (index paired with the item
handed to the worker) in claim order. -/

/-- List elements paired with their indices, starting at a given
index. -/
def enumIdx {α : Type} : ℕ → List α → List (ℕ × α)
  | _, [] => []
  | k, a :: as => (k, a) :: enumIdx (k + 1) as

/-- Shared state of the runner pool. -/
structure PoolState (α : Type) where
  active : ℕ
  counter : ℕ
  log : List (ℕ × α)
  deriving DecidableEq, Repr

/-- Initial pool: min (max 1 concurrency) items.length runners, counter
zero, nothing invoked. -/
def initPool {α : Type} (items : List α) (concurrency : ℕ) : PoolState α :=
  { active := min (max 1 concurrency) items.length, counter := 0, log := [] }

/-- One atomic turn of one runner.  A runner that observes the abort
flag exits without claiming; otherwise it claims the counter value and
increments the counter, then either exits (claimed index past the end)
or invokes the worker at the claimed index. -/
inductive PoolStep {α : Type} (items : List α) (aborted : Bool) :
    PoolState α → PoolState α → Prop where
  | claim (s : PoolState α) (h : 0 < s.active) (hb : aborted = false)
      (hlt : s.counter < items.length) :
      PoolStep items aborted s
        ⟨s.active, s.counter + 1, s.log ++ [(s.counter, items.get ⟨s.counter, hlt⟩)]⟩
  | exitDone (s : PoolState α) (h : 0 < s.active) (hb : aborted = false)
      (hge : items.length ≤ s.counter) :
      PoolStep items aborted s ⟨s.active - 1, s.counter + 1, s.log⟩
  | exitAborted (s : PoolState α) (h : 0 < s.active) (hb : aborted = true) :
      PoolStep items aborted s ⟨s.active - 1, s.counter, s.log⟩

/-- Invariant of every reachable pool state: the log is the indexed
leading segment of the items claimed so far, and runners have exited
exactly for claims past the end. -/
def poolInv {α : Type} (items : List α) (startActive : ℕ) (s : PoolState α) : Prop :=
  s.log = enumIdx 0 (items.take s.counter)
  ∧ s.active + (s.counter - min s.counter items.length) = startActive

theorem enumIdx_take_succ {α : Type} (l : List α) :
    ∀ (k c : ℕ) (h : c < l.length),
      enumIdx k (l.take (c + 1)) = enumIdx k (l.take c) ++ [(k + c, l.get ⟨c, h⟩)] := by
  induction l with
  | nil => intro k c h; simp at h
  | cons a as ih =>
    intro k c h
    cases c with
    | zero => simp [enumIdx]
    | succ c =>
      simp only [List.take_succ_cons, enumIdx, List.cons_append, List.get]
      rw [ih (k + 1) c (by simpa using h)]
      have harith : k + 1 + c = k + (c + 1) := by omega
      rw [harith]

theorem enumIdx_map_fst {α : Type} (l : List α) :
    ∀ k, (enumIdx k l).map Prod.fst = List.range' k l.length := by
  induction l with
  | nil => intro k; simp [enumIdx]
  | cons a as ih => intro k; simp [enumIdx, List.range', ih]

theorem poolInv_step {α : Type} {items : List α} {startActive : ℕ}
    {s s2 : PoolState α} (hstep : PoolStep items false s s2)
    (h : poolInv items startActive s) : poolInv items startActive s2 := by
  cases hstep with
  | claim h0 hb hlt =>
    refine ⟨?_, ?_⟩
    · show s.log ++ [(s.counter, items.get ⟨s.counter, hlt⟩)]
        = enumIdx 0 (items.take (s.counter + 1))
      rw [h.1, enumIdx_take_succ items 0 s.counter hlt]
      simp
    · have hm1 : min s.counter items.length = s.counter := Nat.min_eq_left (le_of_lt hlt)
      have hm2 : min (s.counter + 1) items.length = s.counter + 1 := Nat.min_eq_left hlt
      have h2 := h.2
      rw [hm1] at h2
      show s.active + (s.counter + 1 - min (s.counter + 1) items.length) = startActive
      rw [hm2]
      omega
  | exitDone h0 hb hge =>
    refine ⟨?_, ?_⟩
    · show s.log = enumIdx 0 (items.take (s.counter + 1))
      rw [h.1, List.take_of_length_le hge, List.take_of_length_le (le_trans hge (Nat.le_succ _))]
    · have hm1 : min s.counter items.length = items.length := Nat.min_eq_right hge
      have hm2 : min (s.counter + 1) items.length = items.length :=
        Nat.min_eq_right (le_trans hge (Nat.le_succ _))
      have h2 := h.2
      rw [hm1] at h2
      show s.active - 1 + (s.counter + 1 - min (s.counter + 1) items.length) = startActive
      rw [hm2]
      omega
  | exitAborted h0 hb => exact absurd hb (by simp)

/-- C4: with no cancellation, a pool started on N items with concurrency
bound c (1 ≤ c ≤ N) spawns exactly min c N runners, and any complete
execution (one no runner can extend) has invoked the worker exactly once
per index 0..N-1, in claim order, each invocation receiving the item at
its own index — no index duplicated, none skipped, independent of the
interleaving. -/
theorem poolInv_reachable {α : Type} (items : List α) (c : ℕ) (s : PoolState α)
    (hexec : Relation.ReflTransGen (PoolStep items false) (initPool items c) s) :
    poolInv items (initPool items c).active s := by
  induction hexec with
  | refl => exact ⟨by simp [initPool, enumIdx], by simp [initPool]⟩
  | tail _ hstep ih => exact poolInv_step hstep ih

theorem runWithConcurrency_exactly_once {α : Type} (items : List α) (c : ℕ)
    (hc1 : 1 ≤ c) (hcN : c ≤ items.length) (s : PoolState α)
    (hexec : Relation.ReflTransGen (PoolStep items false) (initPool items c) s)
    (hterm : ∀ s2, ¬ PoolStep items false s s2) :
    (initPool items c).active = min c items.length
  ∧ s.log = enumIdx 0 items
  ∧ s.log.map Prod.fst = List.range items.length := by
  have hstart : (initPool items c).active = min c items.length := by
    simp [initPool, Nat.max_eq_right hc1]
  have hinv : poolInv items (initPool items c).active s :=
    poolInv_reachable items c s hexec
  have hactive : s.active = 0 := by
    by_contra hne
    have hpos : 0 < s.active := Nat.pos_of_ne_zero hne
    rcases Nat.lt_or_ge s.counter items.length with hlt | hge
    · exact hterm _ (PoolStep.claim s hpos rfl hlt)
    · exact hterm _ (PoolStep.exitDone s hpos rfl hge)
  have hA0 : 1 ≤ (initPool items c).active := by
    rw [hstart]
    exact le_min hc1 (le_trans hc1 hcN)
  have hcnt : items.length < s.counter := by
    have h2 := hinv.2
    rw [hactive] at h2
    rcases Nat.lt_or_ge items.length s.counter with h | h
    · exact h
    · exfalso
      have : min s.counter items.length = s.counter := Nat.min_eq_left h
      omega
  refine ⟨hstart, ?_, ?_⟩
  · rw [hinv.1, List.take_of_length_le (le_of_lt hcnt)]
  · rw [hinv.1, List.take_of_length_le (le_of_lt hcnt), enumIdx_map_fst,
      List.range_eq_range' items.length]

/-- Witness for C4: one item, concurrency one; the two-step complete run
claims index 0, invokes the worker on it, and exits. -/
theorem runWithConcurrency_exactly_once_witness :
    (initPool ["a"] 1).active = min 1 (["a"] : List String).length
  ∧ (⟨0, 2, [(0, "a")]⟩ : PoolState String).log = enumIdx 0 ["a"]
  ∧ (⟨0, 2, [(0, "a")]⟩ : PoolState String).log.map Prod.fst
      = List.range (["a"] : List String).length := by
  apply runWithConcurrency_exactly_once ["a"] 1 (by decide) (by decide)
  · exact Relation.ReflTransGen.head (PoolStep.claim _ (by decide) rfl (by decide))
      (Relation.ReflTransGen.head (PoolStep.exitDone _ (by decide) rfl (by decide))
        Relation.ReflTransGen.refl)
  · intro s2 hstep
    cases hstep with
    | claim h hb hlt => simp at h
    | exitDone h hb hge => simp at h
    | exitAborted h hb => simp at hb

/-! ### Claim C5: getTransaction encoding fallback

rpcRequest throws either an AbortError (re-raised unchanged) or an
RpcRequestError carrying message / code / httpStatus / isRateLimit /
isNetwork.  getTransaction makes its first attempt with the jsonParsed
encoding and a version ceiling, and on a qualifying RpcRequestError
makes exactly one second attempt with the legacy json encoding and no
ceiling.  The transport is abstracted as an oracle from the request
parameters to a result; the model also returns the list of requests
issued, in order. -/

/-- Fields of RpcRequestError from src/api/solanaRpc.ts. -/
structure RpcErrorInfo where
  message : String
  code : Option ℤ
  httpStatus : Option ℤ
  isRateLimit : Bool
  isNetwork : Bool
  deriving DecidableEq, Repr

/-- Failure of one rpcRequest call: a thrown RpcRequestError, or an
AbortError from the transport (cancellation, re-raised as-is). -/
inductive FetchFailure where
  | rpcErr (e : RpcErrorInfo)
  | aborted
  deriving DecidableEq, Repr

/-- Parameter object of one getTransaction RPC call. -/
structure GetTxRequest where
  encoding : String
  commitment : String
  maxSupportedTransactionVersion : Option ℕ
  deriving DecidableEq, Repr

/-- First-attempt parameters of getTransaction. -/
def parsedEncodingRequest : GetTxRequest :=
  { encoding := "jsonParsed", commitment := "confirmed",
    maxSupportedTransactionVersion := some 0 }

/-- Fallback parameters of getTransaction. -/
def legacyEncodingRequest : GetTxRequest :=
  { encoding := "json", commitment := "confirmed",
    maxSupportedTransactionVersion := none }

/-- Guard of the catch clause of getTransaction: the error is an
RpcRequestError and has code -32602 or a message matching
/unsupported|version|maxsupportedtransactionversion/i. -/
def isVersionFallbackError : FetchFailure → Bool
  | FetchFailure.rpcErr e =>
      e.code == some (-32602)
        || containsCI e.message "unsupported"
        || containsCI e.message "version"
        || containsCI e.message "maxsupportedtransactionversion"
  | FetchFailure.aborted => false

/-- getTransaction from src/api/solanaRpc.ts over an abstract transport
oracle; the second component lists the requests issued in order. -/
def getTransaction {α : Type} (rpc : GetTxRequest → Except FetchFailure α) :
    Except FetchFailure α × List GetTxRequest :=
  match rpc parsedEncodingRequest with
  | Except.ok v => (Except.ok v, [parsedEncodingRequest])
  | Except.error e =>
      if isVersionFallbackError e then
        (rpc legacyEncodingRequest, [parsedEncodingRequest, legacyEncodingRequest])
      else
        (Except.error e, [parsedEncodingRequest])

/-- C5: the first attempt uses the jsonParsed encoding with a version
ceiling; a failure with code -32602 or an unsupported-version message
triggers exactly one retry with the legacy json encoding and no
ceiling, whose outcome (including a second failure) is surfaced as-is;
any other failure propagates unmodified after a single request; no run
issues more than two requests. -/
theorem getTransaction_encoding_fallback {α : Type}
    (rpc : GetTxRequest → Except FetchFailure α) :
    parsedEncodingRequest.encoding = "jsonParsed"
  ∧ parsedEncodingRequest.maxSupportedTransactionVersion = some 0
  ∧ legacyEncodingRequest.encoding = "json"
  ∧ legacyEncodingRequest.maxSupportedTransactionVersion = none
  ∧ (getTransaction rpc).2.length ≤ 2
  ∧ (∀ e, rpc parsedEncodingRequest = Except.error e →
        isVersionFallbackError e = true →
        getTransaction rpc
          = (rpc legacyEncodingRequest, [parsedEncodingRequest, legacyEncodingRequest]))
  ∧ (∀ e, rpc parsedEncodingRequest = Except.error e →
        isVersionFallbackError e = false →
        getTransaction rpc = (Except.error e, [parsedEncodingRequest]))
  ∧ (∀ einfo : RpcErrorInfo, einfo.code = some (-32602) →
        isVersionFallbackError (FetchFailure.rpcErr einfo) = true)
  ∧ isVersionFallbackError FetchFailure.aborted = false := by
  refine ⟨rfl, rfl, rfl, rfl, ?_, ?_, ?_, ?_, rfl⟩
  · unfold getTransaction
    cases rpc parsedEncodingRequest with
    | ok v => simp
    | error e =>
      by_cases h : isVersionFallbackError e = true
      · simp [h]
      · simp [eq_false_of_ne_true h]
  · intro e he htrig
    unfold getTransaction
    rw [he]
    simp [htrig]
  · intro e he htrig
    unfold getTransaction
    rw [he]
    simp [htrig]
  · intro einfo hcode
    simp [isVersionFallbackError, hcode]

/-- Transport oracle for the C5 witness: the jsonParsed attempt fails
with code -32602 and the legacy attempt fails with a different error. -/
def rpcFallbackExample : GetTxRequest → Except FetchFailure ℕ := fun r =>
  if r.encoding = "jsonParsed" then
    Except.error (FetchFailure.rpcErr
      { message := "bad params", code := some (-32602), httpStatus := none,
        isRateLimit := false, isNetwork := false })
  else
    Except.error (FetchFailure.rpcErr
      { message := "second failure", code := none, httpStatus := none,
        isRateLimit := false, isNetwork := false })

/-- Witness for C5: with a first failure of code -32602 and a failing
retry, the surfaced error is the one from the second attempt, after
exactly two requests. -/
theorem getTransaction_encoding_fallback_witness :
    getTransaction rpcFallbackExample
      = (Except.error (FetchFailure.rpcErr
          { message := "second failure", code := none, httpStatus := none,
            isRateLimit := false, isNetwork := false }),
         [parsedEncodingRequest, legacyEncodingRequest]) := by
  have h := (getTransaction_encoding_fallback rpcFallbackExample).2.2.2.2.2.1
    (FetchFailure.rpcErr
      { message := "bad params", code := some (-32602), httpStatus := none,
        isRateLimit := false, isNetwork := false })
    (by simp [rpcFallbackExample, parsedEncodingRequest])
    (by decide)
  rw [h]
  simp [rpcFallbackExample, legacyEncodingRequest]

/-! ### Decimal string rendering (used by template strings and BigInt
formatting) -/

/-- Decimal digit character. -/
def digitChar : ℕ → Char
  | 0 => '0'
  | 1 => '1'
  | 2 => '2'
  | 3 => '3'
  | 4 => '4'
  | 5 => '5'
  | 6 => '6'
  | 7 => '7'
  | 8 => '8'
  | _ => '9'

/-- Decimal digits of a natural number, most significant first
(fuel-based so the kernel can evaluate it). -/
def natDigitsAux : ℕ → ℕ → List Char
  | 0, _ => []
  | fuel + 1, n =>
    if n < 10 then [digitChar n]
    else natDigitsAux fuel (n / 10) ++ [digitChar (n % 10)]

/-- Decimal string of a natural number. -/
def natStr (n : ℕ) : String :=
  (natDigitsAux (n + 1) n).asString

/-- Decimal string of an integer, as produced by JavaScript template
interpolation and BigInt.toString. -/
def intToStr (i : ℤ) : String :=
  if i < 0 then "-" ++ natStr i.natAbs else natStr i.natAbs

/-! ### Claim C9: rpcRequest failure classification

Both copies of rpcRequest check, in order: transport failure (abort
re-raised, otherwise a network error), HTTP status 429 (rate limited),
any other non-ok status (HttpStatus error), unparseable body, JSON-RPC
error field (rate-limit classified by code 429 / -32005 or a message
pattern), and a missing result.  The copy in src/api/solanaRpc.ts uses
the pattern /rate|too many|throttle/i; the copy in the unnamed module
uses /rate|too many/i without the throttle alternative. -/

/-- Error object of a JSON-RPC response envelope. -/
structure RpcErrObj where
  code : ℤ
  message : String
  deriving DecidableEq, Repr

/-- Body of an HTTP response: response.json() threw, or an envelope
with optional error and result fields. -/
inductive RpcBody (α : Type) where
  | malformed
  | parsedBody (error : Option RpcErrObj) (result : Option α)
  deriving DecidableEq, Repr

/-- Outcome of one fetch call. -/
inductive HttpOutcome (α : Type) where
  | fetchAborted
  | fetchFailed
  | response (status : ℤ) (body : RpcBody α)
  deriving DecidableEq, Repr

/-- response.ok from the fetch API: status in [200, 300). -/
def statusOk (status : ℤ) : Bool :=
  decide (200 ≤ status) && decide (status < 300)

/-- rpcRequest from src/api/solanaRpc.ts over an abstract HTTP
outcome. -/
def rpcRequest {α : Type} (o : HttpOutcome α) : Except FetchFailure α :=
  match o with
  | HttpOutcome.fetchAborted => Except.error FetchFailure.aborted
  | HttpOutcome.fetchFailed =>
      Except.error (FetchFailure.rpcErr
        { message := "Unable to connect to the selected RPC endpoint.",
          code := none, httpStatus := none, isRateLimit := false, isNetwork := true })
  | HttpOutcome.response status body =>
      if status = 429 then
        Except.error (FetchFailure.rpcErr
          { message := "RPC rate limit hit.", code := none, httpStatus := some 429,
            isRateLimit := true, isNetwork := false })
      else if statusOk status = false then
        Except.error (FetchFailure.rpcErr
          { message := "RPC returned HTTP " ++ intToStr status ++ ".",
            code := none, httpStatus := some status,
            isRateLimit := false, isNetwork := false })
      else
        match body with
        | RpcBody.malformed =>
            Except.error (FetchFailure.rpcErr
              { message := "RPC returned an invalid JSON response.",
                code := none, httpStatus := none, isRateLimit := false, isNetwork := false })
        | RpcBody.parsedBody (some e) _ =>
            Except.error (FetchFailure.rpcErr
              { message := e.message, code := some e.code, httpStatus := none,
                isRateLimit :=
                  e.code == 429 || e.code == -32005 || containsCI e.message "rate"
                    || containsCI e.message "too many" || containsCI e.message "throttle",
                isNetwork := false })
        | RpcBody.parsedBody none (some r) => Except.ok r
        | RpcBody.parsedBody none none =>
            Except.error (FetchFailure.rpcErr
              { message := "RPC response did not include a result.",
                code := none, httpStatus := none, isRateLimit := false, isNetwork := false })

/-- rpcRequest from the unnamed module (the second copy): identical
control flow, different message texts, and a rate-limit message pattern
of /rate|too many/i without the throttle alternative. -/
def rpcRequestAlt {α : Type} (o : HttpOutcome α) : Except FetchFailure α :=
  match o with
  | HttpOutcome.fetchAborted => Except.error FetchFailure.aborted
  | HttpOutcome.fetchFailed =>
      Except.error (FetchFailure.rpcErr
        { message := "Unable to reach RPC endpoint.",
          code := none, httpStatus := none, isRateLimit := false, isNetwork := true })
  | HttpOutcome.response status body =>
      if status = 429 then
        Except.error (FetchFailure.rpcErr
          { message := "RPC endpoint rate limited the request.", code := none,
            httpStatus := some 429, isRateLimit := true, isNetwork := false })
      else if statusOk status = false then
        Except.error (FetchFailure.rpcErr
          { message := "RPC endpoint returned HTTP " ++ intToStr status ++ ".",
            code := none, httpStatus := some status,
            isRateLimit := false, isNetwork := false })
      else
        match body with
        | RpcBody.malformed =>
            Except.error (FetchFailure.rpcErr
              { message := "RPC endpoint returned invalid JSON.",
                code := none, httpStatus := none, isRateLimit := false, isNetwork := false })
        | RpcBody.parsedBody (some e) _ =>
            Except.error (FetchFailure.rpcErr
              { message := e.message, code := some e.code, httpStatus := none,
                isRateLimit :=
                  e.code == 429 || e.code == -32005 || containsCI e.message "rate"
                    || containsCI e.message "too many",
                isNetwork := false })
        | RpcBody.parsedBody none (some r) => Except.ok r
        | RpcBody.parsedBody none none =>
            Except.error (FetchFailure.rpcErr
              { message := "RPC response did not include a result.",
                code := none, httpStatus := none, isRateLimit := false, isNetwork := false })

deriving instance DecidableEq for Except

/-- C9 counterexample: the rpcRequest copy in the unnamed module does
not classify a protocol error whose message is Throttled as
rate-limited — its pattern lacks the throttle alternative, refuting the
claim for that cited function. -/
theorem rpcRequestAlt_throttle_not_rate_limited :
    rpcRequestAlt (HttpOutcome.response 200
        (RpcBody.parsedBody (some { code := 0, message := "Throttled" }) (none : Option ℕ)))
      = Except.error (FetchFailure.rpcErr
          { message := "Throttled", code := some 0, httpStatus := none,
            isRateLimit := false, isNetwork := false }) := by
  decide

/-- C9 amended: HTTP 429 is rate-limited; every other non-2xx status
yields an HttpStatus error with the rate-limit flag false carrying that
status; a 2xx protocol error is rate-limit-classified by code 429 /
-32005 or a case-insensitive rate / too many / throttle message match in
the src/api/solanaRpc.ts copy — in particular any message containing
throttle — while the unnamed-module copy matches only rate / too many. -/
theorem rpcRequest_rate_limit_classification {α : Type} :
    (∀ body : RpcBody α,
        rpcRequest (HttpOutcome.response 429 body)
          = Except.error (FetchFailure.rpcErr
              { message := "RPC rate limit hit.", code := none, httpStatus := some 429,
                isRateLimit := true, isNetwork := false }))
  ∧ (∀ (status : ℤ) (body : RpcBody α), status ≠ 429 → statusOk status = false →
        rpcRequest (HttpOutcome.response status body)
          = Except.error (FetchFailure.rpcErr
              { message := "RPC returned HTTP " ++ intToStr status ++ ".",
                code := none, httpStatus := some status,
                isRateLimit := false, isNetwork := false }))
  ∧ (∀ (status : ℤ) (e : RpcErrObj) (result : Option α),
        status ≠ 429 → statusOk status = true →
        rpcRequest (HttpOutcome.response status (RpcBody.parsedBody (some e) result))
          = Except.error (FetchFailure.rpcErr
              { message := e.message, code := some e.code, httpStatus := none,
                isRateLimit :=
                  e.code == 429 || e.code == -32005 || containsCI e.message "rate"
                    || containsCI e.message "too many" || containsCI e.message "throttle",
                isNetwork := false }))
  ∧ (∀ (status : ℤ) (e : RpcErrObj) (result : Option α),
        status ≠ 429 → statusOk status = true →
        containsCI e.message "throttle" = true →
        ∃ info, rpcRequest (HttpOutcome.response status (RpcBody.parsedBody (some e) result))
            = Except.error (FetchFailure.rpcErr info) ∧ info.isRateLimit = true)
  ∧ (∀ (status : ℤ) (e : RpcErrObj) (result : Option α),
        status ≠ 429 → statusOk status = true →
        rpcRequestAlt (HttpOutcome.response status (RpcBody.parsedBody (some e) result))
          = Except.error (FetchFailure.rpcErr
              { message := e.message, code := some e.code, httpStatus := none,
                isRateLimit :=
                  e.code == 429 || e.code == -32005 || containsCI e.message "rate"
                    || containsCI e.message "too many",
                isNetwork := false })) := by
  refine ⟨?_, ?_, ?_, ?_, ?_⟩
  · intro body
    simp [rpcRequest]
  · intro status body hne hok
    simp [rpcRequest, hne, hok]
  · intro status e result hne hok
    simp [rpcRequest, hne, hok]
  · intro status e result hne hok hthr
    refine ⟨{ message := e.message, code := some e.code, httpStatus := none,
              isRateLimit :=
                e.code == 429 || e.code == -32005 || containsCI e.message "rate"
                  || containsCI e.message "too many" || containsCI e.message "throttle",
              isNetwork := false }, ?_, ?_⟩
    · simp [rpcRequest, hne, hok]
    · simp [hthr]
  · intro status e result hne hok
    simp [rpcRequestAlt, hne, hok]

/-- Witness for C9 amended: HTTP 500 yields an HttpStatus error with
the rate-limit flag false, and a 2xx Throttled protocol error is
rate-limited in the src/api/solanaRpc.ts copy. -/
theorem rpcRequest_rate_limit_classification_witness :
    rpcRequest (HttpOutcome.response 500 (RpcBody.malformed : RpcBody ℕ))
      = Except.error (FetchFailure.rpcErr
          { message := "RPC returned HTTP " ++ intToStr 500 ++ ".",
            code := none, httpStatus := some 500,
            isRateLimit := false, isNetwork := false })
  ∧ rpcRequest (HttpOutcome.response 200
        (RpcBody.parsedBody (some { code := 0, message := "Throttled" }) (none : Option ℕ)))
      = Except.error (FetchFailure.rpcErr
          { message := "Throttled", code := some 0, httpStatus := none,
            isRateLimit := true, isNetwork := false }) := by
  constructor
  · exact (rpcRequest_rate_limit_classification (α := ℕ)).2.1 500 RpcBody.malformed
      (by decide) (by decide)
  · have h := (rpcRequest_rate_limit_classification (α := ℕ)).2.2.1 200
      { code := 0, message := "Throttled" } none (by decide) (by decide)
    rw [h]
    decide

/-! ### Claims C6 and C8: the wallet data cache read path

readWalletCache (App.tsx) reads localStorage, JSON.parses the raw
string, checks that cachedAt is a number within the 300000 ms TTL
(removing the key and missing otherwise), and rebuilds the entry with
defensive per-field deserialization.  The embedding abstracts the
storage cell as absent / malformed JSON / parsed JSON value, and
Date.parse as an oracle from strings to JavaScript numbers; the result
pairs the returned entry with whether the key was removed. -/

/-- CACHE_TTL_MS from App.tsx (5 minutes). -/
def CACHE_TTL_MS : ℚ := 300000

/-- parseFiniteOrNull from App.tsx: a value passes iff it is a number
and finite. -/
def parseFiniteOrNull (v : Option JVal) : Option ℚ :=
  match v with
  | some (JVal.jnum (JsNum.finite q)) => some q
  | _ => none

/-- parseIntegerOrNull from App.tsx: a value passes iff it is a number
and an integer. -/
def parseIntegerOrNull (v : Option JVal) : Option ℤ :=
  match v with
  | some (JVal.jnum (JsNum.finite q)) => if q.den = 1 then some q.num else none
  | _ => none

/-- Truthy-object test !item || typeof item !== "object": only objects
and arrays pass (null is falsy, so it does not). -/
def objLike : JVal → Bool
  | JVal.jobj _ => true
  | JVal.jarr _ => true
  | _ => false

/-- UiTxRow of the unnamed module, the row type App.tsx deserializes
into: same fields as UiTxRow minus detailUnavailable, with slot read
back through parseFiniteOrNull. -/
structure AppUiTxRow where
  signature : String
  time : Option ℚ
  status : TxStatus
  direction : TxDirection
  solChange : Option ℚ
  feeSol : Option ℚ
  slot : Option ℚ
  explorerUrl : String
  deriving DecidableEq, Repr

/-- UiTokenBalanceRow from the unnamed module. -/
structure UiTokenBalanceRow where
  mint : String
  amount : String
  decimals : ℤ
  accountCount : ℤ
  deriving DecidableEq, Repr

/-- Per-item body of deserializeTxRows from App.tsx.  dateParse is the
abstracted Date.parse; the row is rejected (none) only when the item is
not object-like or one of signature/status/direction/explorerUrl is not
a string; every other field degrades individually. -/
def deserializeTxRow (dateParse : String → JsNum) (item : JVal) : Option AppUiTxRow :=
  if objLike item = false then none
  else
    match getFieldOpt item "signature", getFieldOpt item "status",
        getFieldOpt item "direction", getFieldOpt item "explorerUrl" with
    | some (JVal.jstr sigStr), some (JVal.jstr statusStr),
        some (JVal.jstr directionStr), some (JVal.jstr urlStr) =>
      some { signature := sigStr
             time := match getFieldOpt item "time" with
               | some (JVal.jstr ts) =>
                 match dateParse ts with
                 | JsNum.finite q => some q
                 | _ => none
               | _ => none
             status :=
               if statusStr = "success" then TxStatus.success
               else if statusStr = "fail" then TxStatus.fail
               else TxStatus.unknown
             direction :=
               if directionStr = "incoming" then TxDirection.incoming
               else if directionStr = "outgoing" then TxDirection.outgoing
               else TxDirection.unknown
             solChange := parseFiniteOrNull (getFieldOpt item "solChange")
             feeSol := parseFiniteOrNull (getFieldOpt item "feeSol")
             slot := parseFiniteOrNull (getFieldOpt item "slot")
             explorerUrl := urlStr }
    | _, _, _, _ => none

/-- deserializeTxRows from App.tsx: a non-array input yields the empty
list; array items map through the per-item body and nulls are
filtered. -/
def deserializeTxRows (dateParse : String → JsNum) (value : Option JVal) : List AppUiTxRow :=
  match value with
  | some (JVal.jarr items) => items.filterMap (deserializeTxRow dateParse)
  | _ => []

/-- Per-item body of deserializeTokenBalances from App.tsx: the row is
dropped when mint or amount is not a string, or decimals or
accountCount is not an integer number or is negative. -/
def deserializeTokenBalance (item : JVal) : Option UiTokenBalanceRow :=
  if objLike item = false then none
  else
    match getFieldOpt item "mint", getFieldOpt item "amount",
        parseIntegerOrNull (getFieldOpt item "decimals"),
        parseIntegerOrNull (getFieldOpt item "accountCount") with
    | some (JVal.jstr mintStr), some (JVal.jstr amountStr), some d, some a =>
      if d < 0 || a < 0 then none
      else some { mint := mintStr, amount := amountStr, decimals := d, accountCount := a }
    | _, _, _, _ => none

/-- deserializeTokenBalances from App.tsx. -/
def deserializeTokenBalances (value : Option JVal) : List UiTokenBalanceRow :=
  match value with
  | some (JVal.jarr items) => items.filterMap deserializeTokenBalance
  | _ => []

/-- State of one localStorage cell as seen by readWalletCache: no item
stored, an item JSON.parse throws on, or an item parsing to a JSON
value. -/
inductive RawCell where
  | absent
  | malformed
  | parsed (v : JVal)

/-- Entry returned by readWalletCache. -/
structure WalletCacheData where
  cachedAt : JsNum
  balanceSol : Option ℚ
  rows : List AppUiTxRow
  tokenBalances : List UiTokenBalanceRow
  deriving DecidableEq, Repr

/-- readWalletCache from App.tsx over an abstract storage cell and
clock.  The Bool records whether the key was removed.  A thrown
property access (payload null) is caught by the surrounding try/catch
and yields a miss without removal; a non-numeric cachedAt or an entry
older than the TTL removes the key and yields a miss; otherwise the
entry is rebuilt with the defensive deserializers. -/
def readWalletCache (dateParse : String → JsNum) (cell : RawCell) (now : ℚ) :
    Option WalletCacheData × Bool :=
  match cell with
  | RawCell.absent => (none, false)
  | RawCell.malformed => (none, false)
  | RawCell.parsed v =>
    match getProp v "cachedAt" with
    | Except.error _ => (none, false)
    | Except.ok cachedAtField =>
      match cachedAtField with
      | some (JVal.jnum ca) =>
        if jsGtB (jsSub (JsNum.finite now) ca) (JsNum.finite CACHE_TTL_MS) then (none, true)
        else
          (some { cachedAt := ca
                  balanceSol := parseFiniteOrNull (getFieldOpt v "balanceSol")
                  rows := deserializeTxRows dateParse (getFieldOpt v "rows")
                  tokenBalances := deserializeTokenBalances (getFieldOpt v "tokenBalances") },
           false)
      | _ => (none, true)

/-- C6 counterexample: a structurally invalid stored payload whose rows
field has the wrong type (a number) but whose cachedAt is fresh is not
treated as a cache miss — readWalletCache serves an entry with the rows
degraded to empty, refuting the claim that any wrong-typed field yields
a miss. -/
theorem readWalletCache_wrong_rows_type_still_served :
    readWalletCache (fun _ => JsNum.nan)
        (RawCell.parsed (JVal.jobj
          [("cachedAt", JVal.jnum (JsNum.finite 1000)),
           ("rows", JVal.jnum (JsNum.finite 1))])) 1000
      = (some { cachedAt := JsNum.finite 1000, balanceSol := none,
                rows := [], tokenBalances := [] }, false) := by
  simp [readWalletCache, getProp, lookupLast, getFieldOpt, jsGtB, jsSub, CACHE_TTL_MS,
    parseFiniteOrNull, deserializeTxRows, deserializeTokenBalances]

/-- C6 amended: an entry whose age now - cachedAt exceeds the 300000 ms
TTL is removed and not served (in particular one cached 6 minutes ago);
unparseable JSON, a payload whose property access throws, and a
non-numeric cachedAt are misses (the latter also removes the key) and
no parse error reaches the caller; with a fresh numeric cachedAt the
entry is served with wrong-typed remaining fields degraded field-wise
by the defensive deserializers rather than causing a miss. -/
theorem readWalletCache_ttl_and_validation (dateParse : String → JsNum) (now : ℚ) :
    (∀ (v : JVal) (ca : ℚ),
        getProp v "cachedAt" = Except.ok (some (JVal.jnum (JsNum.finite ca))) →
        CACHE_TTL_MS < now - ca →
        readWalletCache dateParse (RawCell.parsed v) now = (none, true))
  ∧ (readWalletCache dateParse RawCell.malformed now = (none, false))
  ∧ (∀ v : JVal, getProp v "cachedAt" = Except.error () →
        readWalletCache dateParse (RawCell.parsed v) now = (none, false))
  ∧ (∀ (v : JVal) (f : Option JVal), getProp v "cachedAt" = Except.ok f →
        (∀ n, f ≠ some (JVal.jnum n)) →
        readWalletCache dateParse (RawCell.parsed v) now = (none, true))
  ∧ (∀ (v : JVal) (ca : JsNum),
        getProp v "cachedAt" = Except.ok (some (JVal.jnum ca)) →
        jsGtB (jsSub (JsNum.finite now) ca) (JsNum.finite CACHE_TTL_MS) = false →
        readWalletCache dateParse (RawCell.parsed v) now
          = (some { cachedAt := ca
                    balanceSol := parseFiniteOrNull (getFieldOpt v "balanceSol")
                    rows := deserializeTxRows dateParse (getFieldOpt v "rows")
                    tokenBalances := deserializeTokenBalances (getFieldOpt v "tokenBalances") },
             false)) := by
  refine ⟨?_, rfl, ?_, ?_, ?_⟩
  · intro v ca hget httl
    simp [readWalletCache, hget, jsGtB, jsSub, httl]
  · intro v hget
    simp [readWalletCache, hget]
  · intro v f hget hnotnum
    cases f with
    | none => simp [readWalletCache, hget]
    | some w =>
      cases w with
      | jnum n => exact absurd rfl (hnotnum n)
      | jnull => simp [readWalletCache, hget]
      | jbool b => simp [readWalletCache, hget]
      | jstr s => simp [readWalletCache, hget]
      | jarr l => simp [readWalletCache, hget]
      | jobj fs => simp [readWalletCache, hget]
  · intro v ca hget hfresh
    simp [readWalletCache, hget, hfresh]

/-- Witness for C6 amended: an entry cached at 0 read at now = 360000
(6 minutes later, TTL 5 minutes) is removed and not served. -/
theorem readWalletCache_ttl_and_validation_witness :
    readWalletCache (fun _ => JsNum.nan)
        (RawCell.parsed (JVal.jobj [("cachedAt", JVal.jnum (JsNum.finite 0))])) 360000
      = (none, true) := by
  exact (readWalletCache_ttl_and_validation (fun _ => JsNum.nan) 360000).1
    (JVal.jobj [("cachedAt", JVal.jnum (JsNum.finite 0))]) 0
    (by simp [getProp, lookupLast])
    (by norm_num [CACHE_TTL_MS])

/-- C8 counterexample: a stored transaction row whose solChange is the
non-finite number Infinity is not dropped — deserializeTxRows keeps the
row and substitutes null for the non-finite field, refuting the claim
that such rows are rejected whole. -/
theorem deserializeTxRows_keeps_nonfinite_amount_row :
    deserializeTxRows (fun _ => JsNum.nan)
        (some (JVal.jarr [JVal.jobj
          [("signature", JVal.jstr "sig"),
           ("status", JVal.jstr "success"),
           ("direction", JVal.jstr "incoming"),
           ("explorerUrl", JVal.jstr "url"),
           ("solChange", JVal.jnum JsNum.posInf)]]))
      = [{ signature := "sig", time := none, status := TxStatus.success,
           direction := TxDirection.incoming, solChange := none, feeSol := none,
           slot := none, explorerUrl := "url" }] := by
  simp [deserializeTxRows, deserializeTxRow, objLike, getFieldOpt, lookupLast,
    parseFiniteOrNull]

/-- C8 amended: cache deserialization drops a stored transaction row
only when signature, status, direction or explorerUrl is not a string;
non-finite solChange / feeSol / slot values are kept as null in the
surviving row.  Token balances with a negative (or non-integer)
decimals or accountCount are dropped whole, so the returned lists are
smaller-but-valid subsets of the stored ones. -/
theorem deserialize_validation (dateParse : String → JsNum) :
    (∀ (item : JVal) (s st dir url : String),
        objLike item = true →
        getFieldOpt item "signature" = some (JVal.jstr s) →
        getFieldOpt item "status" = some (JVal.jstr st) →
        getFieldOpt item "direction" = some (JVal.jstr dir) →
        getFieldOpt item "explorerUrl" = some (JVal.jstr url) →
        deserializeTxRow dateParse item
          = some { signature := s
                   time := match getFieldOpt item "time" with
                     | some (JVal.jstr ts) =>
                       match dateParse ts with
                       | JsNum.finite q => some q
                       | _ => none
                     | _ => none
                   status :=
                     if st = "success" then TxStatus.success
                     else if st = "fail" then TxStatus.fail
                     else TxStatus.unknown
                   direction :=
                     if dir = "incoming" then TxDirection.incoming
                     else if dir = "outgoing" then TxDirection.outgoing
                     else TxDirection.unknown
                   solChange := parseFiniteOrNull (getFieldOpt item "solChange")
                   feeSol := parseFiniteOrNull (getFieldOpt item "feeSol")
                   slot := parseFiniteOrNull (getFieldOpt item "slot")
                   explorerUrl := url })
  ∧ (∀ (item : JVal) (d : ℤ),
        parseIntegerOrNull (getFieldOpt item "decimals") = some d → d < 0 →
        deserializeTokenBalance item = none)
  ∧ (∀ (item : JVal) (a : ℤ),
        parseIntegerOrNull (getFieldOpt item "accountCount") = some a → a < 0 →
        deserializeTokenBalance item = none) := by
  refine ⟨?_, ?_, ?_⟩
  · intro item s st dir url hobj hs hst hdir hurl
    simp [deserializeTxRow, hobj, hs, hst, hdir, hurl]
  · intro item d hd hneg
    by_cases hobj : objLike item = true
    · cases hmint : getFieldOpt item "mint" with
      | none => simp [deserializeTokenBalance, hobj, hmint]
      | some mv =>
        cases mv with
        | jnull => simp [deserializeTokenBalance, hobj, hmint]
        | jbool b => simp [deserializeTokenBalance, hobj, hmint]
        | jnum n => simp [deserializeTokenBalance, hobj, hmint]
        | jarr l => simp [deserializeTokenBalance, hobj, hmint]
        | jobj fs => simp [deserializeTokenBalance, hobj, hmint]
        | jstr ms =>
          cases hamt : getFieldOpt item "amount" with
          | none => simp [deserializeTokenBalance, hobj, hmint, hamt]
          | some av =>
            cases av with
            | jnull => simp [deserializeTokenBalance, hobj, hmint, hamt]
            | jbool b => simp [deserializeTokenBalance, hobj, hmint, hamt]
            | jnum n => simp [deserializeTokenBalance, hobj, hmint, hamt]
            | jarr l => simp [deserializeTokenBalance, hobj, hmint, hamt]
            | jobj fs => simp [deserializeTokenBalance, hobj, hmint, hamt]
            | jstr as2 =>
              cases hacct : parseIntegerOrNull (getFieldOpt item "accountCount") with
              | none => simp [deserializeTokenBalance, hobj, hmint, hamt, hd, hacct]
              | some a => simp [deserializeTokenBalance, hobj, hmint, hamt, hd, hacct, hneg]
    · simp [deserializeTokenBalance, eq_false_of_ne_true hobj]
  · intro item a ha hneg
    by_cases hobj : objLike item = true
    · cases hmint : getFieldOpt item "mint" with
      | none => simp [deserializeTokenBalance, hobj, hmint]
      | some mv =>
        cases mv with
        | jnull => simp [deserializeTokenBalance, hobj, hmint]
        | jbool b => simp [deserializeTokenBalance, hobj, hmint]
        | jnum n => simp [deserializeTokenBalance, hobj, hmint]
        | jarr l => simp [deserializeTokenBalance, hobj, hmint]
        | jobj fs => simp [deserializeTokenBalance, hobj, hmint]
        | jstr ms =>
          cases hamt : getFieldOpt item "amount" with
          | none => simp [deserializeTokenBalance, hobj, hamt, hmint]
          | some av =>
            cases av with
            | jnull => simp [deserializeTokenBalance, hobj, hmint, hamt]
            | jbool b => simp [deserializeTokenBalance, hobj, hmint, hamt]
            | jnum n => simp [deserializeTokenBalance, hobj, hmint, hamt]
            | jarr l => simp [deserializeTokenBalance, hobj, hmint, hamt]
            | jobj fs => simp [deserializeTokenBalance, hobj, hmint, hamt]
            | jstr as2 =>
              cases hdec : parseIntegerOrNull (getFieldOpt item "decimals") with
              | none => simp [deserializeTokenBalance, hobj, hmint, hamt, hdec]
              | some d =>
                by_cases hdneg : d < 0
                · simp [deserializeTokenBalance, hobj, hmint, hamt, hdec, hdneg, ha]
                · simp [deserializeTokenBalance, hobj, hmint, hamt, hdec, hdneg, ha, hneg]
    · simp [deserializeTokenBalance, eq_false_of_ne_true hobj]

/-- Witness for C8 amended: a token balance with decimals -1 is
dropped, and a transaction row with every required string present but a
non-finite feeSol survives with feeSol null. -/
theorem deserialize_validation_witness :
    deserializeTokenBalance (JVal.jobj
        [("mint", JVal.jstr "m"), ("amount", JVal.jstr "1"),
         ("decimals", JVal.jnum (JsNum.finite (-1))),
         ("accountCount", JVal.jnum (JsNum.finite 1))]) = none
  ∧ deserializeTxRow (fun _ => JsNum.nan)
        (JVal.jobj
          [("signature", JVal.jstr "s"),
           ("status", JVal.jstr "fail"),
           ("direction", JVal.jstr "outgoing"),
           ("explorerUrl", JVal.jstr "u"),
           ("feeSol", JVal.jnum JsNum.nan)])
      = some { signature := "s", time := none, status := TxStatus.fail,
               direction := TxDirection.outgoing, solChange := none, feeSol := none,
               slot := none, explorerUrl := "u" } := by
  constructor
  · exact (deserialize_validation (fun _ => JsNum.nan)).2.1
      (JVal.jobj
        [("mint", JVal.jstr "m"), ("amount", JVal.jstr "1"),
         ("decimals", JVal.jnum (JsNum.finite (-1))),
         ("accountCount", JVal.jnum (JsNum.finite 1))])
      (-1) (by simp [getFieldOpt, lookupLast, parseIntegerOrNull]) (by norm_num)
  · have h := (deserialize_validation (fun _ => JsNum.nan)).1
      (JVal.jobj
        [("signature", JVal.jstr "s"),
         ("status", JVal.jstr "fail"),
         ("direction", JVal.jstr "outgoing"),
         ("explorerUrl", JVal.jstr "u"),
         ("feeSol", JVal.jnum JsNum.nan)])
      "s" "fail" "outgoing" "u" rfl
      (by simp [getFieldOpt, lookupLast]) (by simp [getFieldOpt, lookupLast])
      (by simp [getFieldOpt, lookupLast]) (by simp [getFieldOpt, lookupLast])
    rw [h]
    simp [getFieldOpt, lookupLast, parseFiniteOrNull]

/-! ### Claim C7: per-signature worker failure accounting

The two orchestrators wrap getTransaction per signature.  In App.tsx
fetchWalletData the worker counts a failure only in the catch of a
non-abort error; in the unnamed-module handleTrack the worker also
counts a successful null detail (detail unavailable) as a failure.
Both always emit a best-effort row unless the error is the abort
signal, which is re-thrown.  The worker body is modelled as a pure
function of the fetch outcome, returning the emitted row, the failure
counter increment, and whether it re-throws. -/

/-- txExplorerUrl from the unnamed-module App. -/
def txExplorerUrl (signature : String) : String :=
  "https://solscan.io/tx/" ++ signature

/-- inferCluster from the unnamed module: substring test on the
lowercased endpoint. -/
def inferCluster (endpoint : String) : String :=
  if containsCI endpoint "devnet" then "devnet"
  else if containsCI endpoint "testnet" then "testnet"
  else "mainnet-beta"

/-- buildExplorerUrl from the unnamed module. -/
def buildExplorerUrl (signature : String) (endpoint : String) : String :=
  let cluster := inferCluster endpoint
  let url := "https://explorer.solana.com/tx/" ++ signature
  if cluster = "mainnet-beta" then url else url ++ "?cluster=" ++ cluster

/-- inferUiTxRow from the unnamed module: same inference logic as
inferTransactionRow, row without the unavailable flag, explorer URL
built from the endpoint, and a missing account-key list defaulted to []
(which finds no wallet index, the same degradation). -/
def inferUiTxRow (walletAddress : String) (signatureInfo : SignatureInfo)
    (detail : Option TransactionDetail) (endpoint : String) : AppUiTxRow :=
  let meta : Option TxMeta := detail.bind (·.meta)
  let accountKeys : List RpcAccountKey := (detail.bind (·.accountKeys)).getD []
  let deltaPair : Option ℚ × TxDirection :=
    match meta.bind (·.preBalances), meta.bind (·.postBalances) with
    | some pre, some post =>
      match accountKeys.findIdx? (fun k => normalizeAccountKey k == walletAddress) with
      | some walletIndex =>
        if walletIndex < pre.length && walletIndex < post.length then
          let lamportDelta : ℤ := post.getD walletIndex 0 - pre.getD walletIndex 0
          let solChange : ℚ := (lamportDelta : ℚ) / (LAMPORTS_PER_SOL : ℚ)
          (some solChange,
            if solChange > 0 then TxDirection.incoming
            else if solChange < 0 then TxDirection.outgoing
            else TxDirection.unknown)
        else (none, TxDirection.unknown)
      | none => (none, TxDirection.unknown)
    | _, _ => (none, TxDirection.unknown)
  let status : TxStatus :=
    match meta with
    | some m =>
      match m.err with
      | ErrField.isNull => TxStatus.success
      | ErrField.nonNull => TxStatus.fail
      | ErrField.absent => TxStatus.unknown
    | none => TxStatus.unknown
  let unixTime : Option ℤ := (detail.bind (·.blockTime)).orElse (fun _ => signatureInfo.blockTime)
  { signature := signatureInfo.signature
    time := unixTime.map (fun t => ((t * 1000 : ℤ) : ℚ))
    status := status
    direction := deltaPair.2
    solChange := deltaPair.1
    feeSol := (meta.bind (·.fee)).map lamportsToSol
    slot := match detail.bind (·.slot) with
      | some s => some ((s : ℤ) : ℚ)
      | none => some ((signatureInfo.slot : ℤ) : ℚ)
    explorerUrl := buildExplorerUrl signatureInfo.signature endpoint }

/-- Outcome of the awaited getTransaction call inside a worker: a
result (possibly the valid null detail), a thrown RpcRequestError, or
the abort signal. -/
inductive DetailFetchOutcome where
  | ok (detail : Option TransactionDetail)
  | err (e : RpcErrorInfo)
  | abortSignal

/-- Effect of one worker invocation: the row it emits (none when it
re-throws), the failure-counter increment, and whether it re-throws. -/
structure WorkerStepResult (ρ : Type) where
  row : Option ρ
  failedDelta : ℕ
  rethrows : Bool

/-- Worker body of fetchWalletData in App.tsx: a caught non-abort error
becomes a null-detail row plus one counted failure; a successful fetch,
null detail included, counts none; the abort signal is re-thrown. -/
def fetchWalletDataWorker (walletAddress : String) (signatureInfo : SignatureInfo)
    (endpoint : String) (outcome : DetailFetchOutcome) : WorkerStepResult AppUiTxRow :=
  match outcome with
  | DetailFetchOutcome.ok d =>
      { row := some (inferUiTxRow walletAddress signatureInfo d endpoint),
        failedDelta := 0, rethrows := false }
  | DetailFetchOutcome.err _ =>
      { row := some (inferUiTxRow walletAddress signatureInfo none endpoint),
        failedDelta := 1, rethrows := false }
  | DetailFetchOutcome.abortSignal => { row := none, failedDelta := 0, rethrows := true }

/-- Worker body of handleTrack in the unnamed-module App: a successful
null detail is counted as a failure (detail unavailable) in addition to
caught non-abort errors. -/
def handleTrackWorker (walletAddress : String) (signatureInfo : SignatureInfo)
    (outcome : DetailFetchOutcome) : WorkerStepResult UiTxRow :=
  match outcome with
  | DetailFetchOutcome.ok d =>
      { row := some (inferTransactionRow walletAddress signatureInfo d
          (txExplorerUrl signatureInfo.signature) d.isNone),
        failedDelta := if d.isNone then 1 else 0, rethrows := false }
  | DetailFetchOutcome.err _ =>
      { row := some (inferTransactionRow walletAddress signatureInfo none
          (txExplorerUrl signatureInfo.signature) true),
        failedDelta := 1, rethrows := false }
  | DetailFetchOutcome.abortSignal => { row := none, failedDelta := 0, rethrows := true }

/-- C7 counterexample: in the handleTrack worker a fetch that succeeds
with a null detail increments the partial-failure counter (value 1, not
0), refuting the claim that the counter counts caught errors only. -/
theorem handleTrackWorker_counts_null_detail :
    (handleTrackWorker "w" ⟨"sig", 1, none⟩ (DetailFetchOutcome.ok none)).failedDelta = 1
  ∧ (handleTrackWorker "w" ⟨"sig", 1, none⟩ (DetailFetchOutcome.ok none)).row.isSome = true := by
  constructor
  · rfl
  · rfl

/-- C7 amended: a null detail is a success value distinct from every
error outcome and both workers still emit a best-effort row for every
non-abort outcome, re-throwing only the abort signal; the
fetchWalletData worker increments the partial-failure counter exactly
on caught non-abort errors, while the handleTrack worker additionally
increments it on a successful null detail. -/
theorem worker_failure_accounting (walletAddress : String)
    (signatureInfo : SignatureInfo) (endpoint : String) :
    (∀ d, fetchWalletDataWorker walletAddress signatureInfo endpoint (DetailFetchOutcome.ok d)
        = { row := some (inferUiTxRow walletAddress signatureInfo d endpoint),
            failedDelta := 0, rethrows := false })
  ∧ (∀ e, fetchWalletDataWorker walletAddress signatureInfo endpoint (DetailFetchOutcome.err e)
        = { row := some (inferUiTxRow walletAddress signatureInfo none endpoint),
            failedDelta := 1, rethrows := false })
  ∧ (fetchWalletDataWorker walletAddress signatureInfo endpoint DetailFetchOutcome.abortSignal
        = { row := none, failedDelta := 0, rethrows := true })
  ∧ ((handleTrackWorker walletAddress signatureInfo (DetailFetchOutcome.ok none)).failedDelta = 1)
  ∧ (∀ d, (handleTrackWorker walletAddress signatureInfo
        (DetailFetchOutcome.ok (some d))).failedDelta = 0)
  ∧ (∀ e, (handleTrackWorker walletAddress signatureInfo
        (DetailFetchOutcome.err e)).failedDelta = 1)
  ∧ (∀ d, (handleTrackWorker walletAddress signatureInfo
        (DetailFetchOutcome.ok d)).row.isSome = true)
  ∧ ((handleTrackWorker walletAddress signatureInfo DetailFetchOutcome.abortSignal).rethrows
        = true) := by
  refine ⟨fun d => rfl, fun e => rfl, rfl, rfl, fun d => rfl, fun e => rfl, fun d => rfl, rfl⟩

/-! ### Claim C10: token balance aggregation

inferUiTokenBalances (unnamed module) walks getTokenAccountsByOwner
results, parses each raw amount with BigInt, sums per mint in a Map
(insertion-ordered, last-wins update in place) while counting accounts,
then sorts by raw amount descending (mint name on ties) and formats
each raw amount by decimal-point insertion.  BigInt is embedded as ℤ;
the typeof guards make wrongly-typed runtime values behave exactly like
absent fields, so fields are embedded as Option of the expected type;
localeCompare is modelled as lexicographic string order (the claim does
not concern the ordering). -/

/-- tokenAmount object of a parsed token account. -/
structure TokenAmountInfo where
  amount : Option String
  decimals : Option ℤ
  deriving DecidableEq, Repr

/-- info object of a parsed token account. -/
structure TokenAccountInfo where
  mint : Option String
  tokenAmount : Option TokenAmountInfo
  deriving DecidableEq, Repr

/-- TokenAccountByOwnerValue with the account?.data?.parsed?.info
optional chain collapsed into one optional field. -/
structure TokenAccountByOwnerValue where
  info : Option TokenAccountInfo
  deriving DecidableEq, Repr

/-- Accumulate the decimal value of a digit string; none on any
non-digit. -/
def decValAux : ℕ → List Char → Option ℕ
  | acc, [] => some acc
  | acc, c :: cs =>
    if c.isDigit then decValAux (acc * 10 + (c.toNat - 48)) cs else none

/-- BigInt(string) on the decimal strings the code feeds it: empty
string is 0n, an optional leading minus then digits; anything else
throws (none).  The hexadecimal and whitespace forms of BigInt are not
exercised by token amounts. -/
def parseBigIntStr (s : String) : Option ℤ :=
  match s.toList with
  | [] => some 0
  | '-' :: rest =>
    match rest with
    | [] => none
    | _ :: _ => (decValAux 0 rest).map (fun n => -(n : ℤ))
  | l => (decValAux 0 l).map (fun n => (n : ℤ))

/-- Per-mint accumulator entry of the byMint Map. -/
structure MintAgg where
  rawAmount : ℤ
  decimals : ℤ
  accountCount : ℕ
  deriving DecidableEq, Repr

/-- Valid-account extraction of the loop body: mint and amount strings
and numeric decimals present and the amount BigInt-parseable, else the
account is skipped. -/
def accountEntry (acc : TokenAccountByOwnerValue) : Option (String × ℤ × ℤ) :=
  match acc.info with
  | none => none
  | some info =>
    match info.mint, info.tokenAmount with
    | some mint, some ta =>
      match ta.amount, ta.decimals with
      | some amtStr, some dec =>
        match parseBigIntStr amtStr with
        | some raw => some (mint, raw, dec)
        | none => none
      | _, _ => none
    | _, _ => none

/-- Map.set of the loop: first occurrence appends, later occurrences
add the raw amount in place, keep the first decimals, and bump the
account count. -/
def setOrCombine : List (String × MintAgg) → String → ℤ → ℤ → List (String × MintAgg)
  | [], mint, raw, dec => [(mint, { rawAmount := raw, decimals := dec, accountCount := 1 })]
  | (k, agg) :: rest, mint, raw, dec =>
    if k = mint then
      (k, { rawAmount := agg.rawAmount + raw, decimals := agg.decimals,
            accountCount := agg.accountCount + 1 }) :: rest
    else (k, agg) :: setOrCombine rest mint raw dec

/-- One iteration of the aggregation loop. -/
def byMintStep (m : List (String × MintAgg)) (acc : TokenAccountByOwnerValue) :
    List (String × MintAgg) :=
  match accountEntry acc with
  | none => m
  | some (mint, raw, dec) => setOrCombine m mint raw dec

/-- The byMint Map built by the loop of inferUiTokenBalances. -/
def byMintMap (tokenAccounts : List TokenAccountByOwnerValue) : List (String × MintAgg) :=
  tokenAccounts.foldl byMintStep []

/-- Map.get on the association list. -/
def lookupAgg : List (String × MintAgg) → String → Option MintAgg
  | [], _ => none
  | (k, agg) :: rest, mint => if k = mint then some agg else lookupAgg rest mint

/-- Strip the trailing zero characters (the /0+$/ replace). -/
def dropTrailingZeros (l : List Char) : List Char :=
  (l.reverse.dropWhile (fun c => c == '0')).reverse

/-- padStart with zero characters. -/
def padLeftZeros (l : List Char) (n : ℕ) : List Char :=
  List.replicate (n - l.length) '0' ++ l

/-- formatRawTokenAmount from the unnamed module: BigInt.toString for
non-positive decimals, otherwise pad to decimals + 1 digits, split off
the last decimals digits as the fraction, strip its trailing zeros, and
re-attach the sign. -/
def formatRawTokenAmount (rawAmount : ℤ) (decimals : ℤ) : String :=
  if decimals ≤ 0 then intToStr rawAmount
  else
    let negative := rawAmount < 0
    let dnat := decimals.toNat
    let absDigits := natDigitsAux (rawAmount.natAbs + 1) rawAmount.natAbs
    let padded := padLeftZeros absDigits (dnat + 1)
    let whole0 := padded.take (padded.length - dnat)
    let whole := if whole0.isEmpty then ['0'] else whole0
    let fraction := dropTrailingZeros (padded.drop (padded.length - dnat))
    let display :=
      if fraction.length > 0 then whole.asString ++ "." ++ fraction.asString
      else whole.asString
    if negative then "-" ++ display else display

/-- Sort-before test of the comparator: larger raw amount first, mint
order on ties. -/
def tokenRowBefore (a b : String × MintAgg) : Bool :=
  if a.2.rawAmount = b.2.rawAmount then decide (a.1 ≤ b.1)
  else decide (b.2.rawAmount < a.2.rawAmount)

/-- Insertion step of the comparator sort. -/
def insertTokenRow (x : String × MintAgg) : List (String × MintAgg) → List (String × MintAgg)
  | [] => [x]
  | y :: ys => if tokenRowBefore x y then x :: y :: ys else y :: insertTokenRow x ys

/-- Comparator sort of the aggregated entries. -/
def sortTokenRows (l : List (String × MintAgg)) : List (String × MintAgg) :=
  l.foldr insertTokenRow []

/-- inferUiTokenBalances from the unnamed module. -/
def inferUiTokenBalances (tokenAccounts : List TokenAccountByOwnerValue) :
    List UiTokenBalanceRow :=
  (sortTokenRows (byMintMap tokenAccounts)).map (fun kv =>
    { mint := kv.1
      amount := formatRawTokenAmount kv.2.rawAmount kv.2.decimals
      decimals := kv.2.decimals
      accountCount := (kv.2.accountCount : ℤ) })

/-- Raw amount and decimals of every valid account with the given
mint, in input order. -/
def mintEntries (tokenAccounts : List TokenAccountByOwnerValue) (mint : String) :
    List (ℤ × ℤ) :=
  (tokenAccounts.filterMap accountEntry).filterMap
    (fun e => if e.1 = mint then some e.2 else none)

/-- Fold the entries of one mint onto an optional accumulator the way
the loop does. -/
def combAgg : Option MintAgg → List (ℤ × ℤ) → Option MintAgg
  | o, [] => o
  | none, (raw, dec) :: rest =>
    combAgg (some { rawAmount := raw, decimals := dec, accountCount := 1 }) rest
  | some agg, (raw, _) :: rest =>
    combAgg (some { rawAmount := agg.rawAmount + raw, decimals := agg.decimals,
                    accountCount := agg.accountCount + 1 }) rest

theorem lookupAgg_setOrCombine_same (m : List (String × MintAgg)) (mint : String)
    (raw dec : ℤ) :
    lookupAgg (setOrCombine m mint raw dec) mint
      = (match lookupAgg m mint with
         | none => some { rawAmount := raw, decimals := dec, accountCount := 1 }
         | some agg => some { rawAmount := agg.rawAmount + raw, decimals := agg.decimals,
                              accountCount := agg.accountCount + 1 }) := by
  induction m with
  | nil => simp [setOrCombine, lookupAgg]
  | cons kv rest ih =>
    obtain ⟨k, agg⟩ := kv
    by_cases h : k = mint
    · simp [setOrCombine, lookupAgg, h]
    · simp [setOrCombine, lookupAgg, h, ih]

theorem lookupAgg_setOrCombine_other (m : List (String × MintAgg)) (mint other : String)
    (raw dec : ℤ) (hne : other ≠ mint) :
    lookupAgg (setOrCombine m other raw dec) mint = lookupAgg m mint := by
  induction m with
  | nil => simp [setOrCombine, lookupAgg, hne]
  | cons kv rest ih =>
    obtain ⟨k, agg⟩ := kv
    by_cases h : k = other
    · subst h
      simp [setOrCombine, lookupAgg, hne]
    · simp [setOrCombine, lookupAgg, h, ih]

theorem lookupAgg_foldl (tokenAccounts : List TokenAccountByOwnerValue) :
    ∀ (m : List (String × MintAgg)) (mint : String),
      lookupAgg (tokenAccounts.foldl byMintStep m) mint
        = combAgg (lookupAgg m mint) (mintEntries tokenAccounts mint) := by
  induction tokenAccounts with
  | nil => intro m mint; simp [mintEntries, combAgg]
  | cons a rest ih =>
    intro m mint
    rw [List.foldl_cons]
    cases he : accountEntry a with
    | none =>
      have hstep : byMintStep m a = m := by simp [byMintStep, he]
      have hents : mintEntries (a :: rest) mint = mintEntries rest mint := by
        simp [mintEntries, List.filterMap_cons, he]
      rw [hstep, hents, ih]
    | some e =>
      obtain ⟨mint2, raw, dec⟩ := e
      have hstep : byMintStep m a = setOrCombine m mint2 raw dec := by
        simp [byMintStep, he]
      by_cases hmint : mint2 = mint
      · subst hmint
        have hents : mintEntries (a :: rest) mint2
            = (raw, dec) :: mintEntries rest mint2 := by
          simp [mintEntries, List.filterMap_cons, he]
        rw [hstep, hents, ih]
        rw [lookupAgg_setOrCombine_same]
        cases lookupAgg m mint2 with
        | none => rfl
        | some agg => rfl
      · have hents : mintEntries (a :: rest) mint = mintEntries rest mint := by
          simp [mintEntries, List.filterMap_cons, he, hmint]
        rw [hstep, hents, ih, lookupAgg_setOrCombine_other m mint mint2 raw dec hmint]

theorem combAgg_some (l : List (ℤ × ℤ)) :
    ∀ agg : MintAgg,
      combAgg (some agg) l
        = some { rawAmount := agg.rawAmount + (l.map Prod.fst).sum,
                 decimals := agg.decimals,
                 accountCount := agg.accountCount + l.length } := by
  induction l with
  | nil => intro agg; simp [combAgg]
  | cons e rest ih =>
    intro agg
    obtain ⟨raw, dec⟩ := e
    rw [show combAgg (some agg) ((raw, dec) :: rest)
        = combAgg (some { rawAmount := agg.rawAmount + raw, decimals := agg.decimals,
                          accountCount := agg.accountCount + 1 }) rest from rfl,
      ih]
    simp
    constructor
    · ring
    · omega

/-- C10: the byMint aggregate of every mint sums the BigInt raw amounts
of exactly the valid token accounts bearing that mint, keeps the first
account decimals, and counts those accounts; the spec example of two
accounts of one mint with raw amounts 1000 and 2500 at 6 decimals
yields rawAmount 3500 displayed 0.0035 with accountCount 2. -/
theorem inferUiTokenBalances_aggregates
    (tokenAccounts : List TokenAccountByOwnerValue) (mint : String) :
    (lookupAgg (byMintMap tokenAccounts) mint
      = (match mintEntries tokenAccounts mint with
         | [] => none
         | (raw, dec) :: rest =>
           some { rawAmount := raw + (rest.map Prod.fst).sum, decimals := dec,
                  accountCount := rest.length + 1 }))
  ∧ inferUiTokenBalances
      [⟨some ⟨some "M1", some ⟨some "1000", some 6⟩⟩⟩,
       ⟨some ⟨some "M1", some ⟨some "2500", some 6⟩⟩⟩]
      = [{ mint := "M1", amount := "0.0035", decimals := 6, accountCount := 2 }] := by
  constructor
  · rw [byMintMap, lookupAgg_foldl]
    cases he : mintEntries tokenAccounts mint with
    | nil => rfl
    | cons e rest =>
      obtain ⟨raw, dec⟩ := e
      rw [show lookupAgg [] mint = none from rfl]
      rw [show combAgg none ((raw, dec) :: rest)
          = combAgg (some { rawAmount := raw, decimals := dec, accountCount := 1 }) rest
          from rfl,
        combAgg_some]
      simp [Nat.add_comm]
  · decide

end WalletTracker
